import Mathlib

/-!
# statdns-socks5: the StatDNS resolver

A shallow embedding of `main.go`: the record model of a StatDNS reply
(`DNSAnswer`, `DNSQuestion`, `DNSResult`), the fetch `getContent`, the lookup
`RunDNSLookup` and the resolver `StatDNSResolver.Resolve`.

Conventions of the embedding.

* A Go `string` is a Lean `String`; the address parsers walk it character by
  character.  They only tell ASCII digits, hex letters, `.` and `:` apart from
  everything else, and every byte of a multi-byte UTF-8 sequence is `≥ 0x80`,
  so walking characters and walking bytes take the same branches.
* A Go `[]byte` is a `List Nat`; the nil slice is `[]`.
* A Go pair `(v, err)` is a Lean pair whose components are `Option`s, `none`
  being Go's `nil`.
* The library calls that touch the outside world (`http.NewRequest`,
  `Client.Do`, reading the body, `json.Unmarshal`) are fields of `Env`.  Every
  function also returns the list of library calls it made, in order.
* `net.ParseIP` is the standard library's parser (`ParseIP`, `parseIPv4`,
  `parseIPv6`, `dtoi`, `xtoi`, `IPv4`, `To4` of package `net`, in the form the
  library had when the program was written: decimal fields may carry leading
  zeros).
-/

namespace StatDNS

set_option maxRecDepth 100000

/-! ## Record model (main.go, lines 14-35)

The Go field `Type` is spelled `Type_`, `Type` being reserved in Lean. -/

/-- DNSAnswer stores a member of answers[] in the StatDNS result. -/
structure DNSAnswer where
  Name : String
  Type_ : String
  Class : String
  TTL : Int
  RDLength : Int
  RData : String
  deriving DecidableEq

/-- DNSQuestion stores a member of question[] in the StatDNS result. -/
structure DNSQuestion where
  Name : String
  Type_ : String
  Class : String
  deriving DecidableEq

/-- DNSResult is the type which matches the JSON object. -/
structure DNSResult where
  Question : List DNSQuestion
  Answer : List DNSAnswer
  deriving DecidableEq

/-! ## Go values used by the program -/

/-- An error value made by a library (net/http, net/url, io, encoding/json). -/
structure LibError where
  pkg : String
  msg : String
  deriving DecidableEq

/-- Go's `error` interface values, told apart by where they were made:
`external e` holds a value made inside a library call, `New text` is the value
of `errors.New(text)` evaluated by this program. -/
inductive error where
  | external (e : LibError)
  | New (text : String)
  deriving DecidableEq

/-- A Go byte slice. -/
abbrev Bytes := List Nat

/-- A `net.IP`: a slice of bytes (16 of them for everything `ParseIP` makes). -/
abbrev IP := List Nat

/-! ## Package net: ParseIP -/

/-- Bigger than we need, not too big to worry about overflow. -/
def big : Nat := 0xFFFFFF

def IPv4len : Nat := 4

def IPv6len : Nat := 16

/-- The loop of `dtoi`: `n` is the number read so far, `i` the number of digits
consumed; the result is `(n, i, ok)` as in Go. -/
def dtoiLoop : List Char → Nat → Nat → Nat × Nat × Bool
  | [], n, i => if i = 0 then (0, i, false) else (n, i, true)
  | c :: cs, n, i =>
    if '0' ≤ c ∧ c ≤ '9' then
      let n1 := n * 10 + (c.toNat - '0'.toNat)
      if n1 ≥ big then (0, i, false) else dtoiLoop cs n1 (i + 1)
    else if i = 0 then (0, i, false) else (n, i, true)

/-- Decimal to integer. Returns number, characters consumed, success. -/
def dtoi (s : List Char) : Nat × Nat × Bool := dtoiLoop s 0 0

/-- The loop of `xtoi`. -/
def xtoiLoop : List Char → Nat → Nat → Nat × Nat × Bool
  | [], n, i => if i = 0 then (0, i, false) else (n, i, true)
  | c :: cs, n, i =>
    if '0' ≤ c ∧ c ≤ '9' then
      let n1 := n * 16 + (c.toNat - '0'.toNat)
      if n1 ≥ big then (0, i, false) else xtoiLoop cs n1 (i + 1)
    else if 'a' ≤ c ∧ c ≤ 'f' then
      let n1 := n * 16 + (c.toNat - 'a'.toNat) + 10
      if n1 ≥ big then (0, i, false) else xtoiLoop cs n1 (i + 1)
    else if 'A' ≤ c ∧ c ≤ 'F' then
      let n1 := n * 16 + (c.toNat - 'A'.toNat) + 10
      if n1 ≥ big then (0, i, false) else xtoiLoop cs n1 (i + 1)
    else if i = 0 then (0, i, false) else (n, i, true)

/-- Hexadecimal to integer. Returns number, characters consumed, success. -/
def xtoi (s : List Char) : Nat × Nat × Bool := xtoiLoop s 0 0

def v4InV6Prefix : List Nat := [0, 0, 0, 0, 0, 0, 0, 0, 0, 0, 0xff, 0xff]

/-- IPv4 returns the IP address (in 16-byte form) of the IPv4 address a.b.c.d. -/
def IPv4 (a b c d : Nat) : IP := v4InV6Prefix ++ [a, b, c, d]

/-- The loop of `parseIPv4`: `i` counts the fields done, `p` holds them. -/
def parseIPv4Loop : Nat → Nat → List Char → List Nat → Option IP
  | 0, _, s, p =>
    if s.length ≠ 0 then none
    else some (IPv4 (p.getD 0 0) (p.getD 1 0) (p.getD 2 0) (p.getD 3 0))
  | k + 1, i, s, p =>
    if s.length = 0 then none
    else
      let dot := i > 0
      if dot ∧ s.head? ≠ some '.' then none
      else
        let s1 := if dot then s.drop 1 else s
        let (n, c, ok) := dtoi s1
        if !ok ∨ n > 0xFF then none
        else parseIPv4Loop k (i + 1) (s1.drop c) (p ++ [n % 256])

/-- Parse IPv4 address (d.d.d.d). -/
def parseIPv4 (s : List Char) : Option IP := parseIPv4Loop IPv4len 0 s []

/-- The first loop that expands the ellipsis: `ip[j+n] = ip[j]` for `j` from
`i - 1` down to `ellipsis`; `cnt` is the number of iterations left. -/
def shiftUp (n : Nat) : Nat → Nat → IP → IP
  | 0, _, ip => ip
  | cnt + 1, j, ip => shiftUp n cnt (j - 1) (ip.set (j + n) (ip.getD j 0))

/-- The second loop that expands the ellipsis: `ip[j] = 0` for `j` from
`ellipsis + n - 1` down to `ellipsis`. -/
def zeroFill : Nat → Nat → IP → IP
  | 0, _, ip => ip
  | cnt + 1, j, ip => zeroFill cnt (j - 1) (ip.set j 0)

/-- What follows the main loop of `parseIPv6`: the whole string must be used
up, and the ellipsis (if any) is expanded. -/
def parseIPv6Finish (s : List Char) (i : Nat) (ellipsis : Option Nat) (ip : IP) : Option IP :=
  if s.length ≠ 0 then none
  else if i < IPv6len then
    match ellipsis with
    | none => none
    | some e =>
      let n := IPv6len - i
      let ip1 := shiftUp n (i - e) (i - 1) ip
      some (zeroFill n (e + n - 1) ip1)
  else if ellipsis.isSome then none
  else some ip

/-- The main loop of `parseIPv6` (`for i < IPv6len`), with `fuel` bounding the
number of iterations (each one advances `i` by at least 2). -/
def parseIPv6Loop : Nat → List Char → Nat → Option Nat → IP → Option IP
  | 0, s, i, ellipsis, ip => parseIPv6Finish s i ellipsis ip
  | fuel + 1, s, i, ellipsis, ip =>
    if ¬ i < IPv6len then parseIPv6Finish s i ellipsis ip
    else
      let (n, c, ok) := xtoi s
      if !ok ∨ n > 0xFFFF then none
      else if c < s.length ∧ s.get? c = some '.' then
        if ellipsis.isNone ∧ i ≠ IPv6len - IPv4len then none
        else if i + IPv4len > IPv6len then none
        else
          match parseIPv4 s with
          | none => none
          | some ip4 =>
            let ip1 := (((ip.set i (ip4.getD 12 0)).set (i + 1) (ip4.getD 13 0)).set
              (i + 2) (ip4.getD 14 0)).set (i + 3) (ip4.getD 15 0)
            parseIPv6Finish [] (i + IPv4len) ellipsis ip1
      else
        let ip1 := (ip.set i (n / 256 % 256)).set (i + 1) (n % 256)
        let i1 := i + 2
        let s1 := s.drop c
        if s1.length = 0 then parseIPv6Finish s1 i1 ellipsis ip1
        else if s1.head? ≠ some ':' ∨ s1.length = 1 then none
        else
          let s2 := s1.drop 1
          if s2.head? = some ':' then
            if ellipsis.isSome then none
            else
              let s3 := s2.drop 1
              if s3.length = 0 then parseIPv6Finish s3 i1 (some i1) ip1
              else parseIPv6Loop fuel s3 i1 (some i1) ip1
          else parseIPv6Loop fuel s2 i1 ellipsis ip1

/-- Parse s as a literal IPv6 address (no zone allowed). -/
def parseIPv6 (s : List Char) : Option IP :=
  let ip := List.replicate IPv6len 0
  if s.length ≥ 2 ∧ s.get? 0 = some ':' ∧ s.get? 1 = some ':' then
    let s1 := s.drop 2
    if s1.length = 0 then some ip
    else parseIPv6Loop IPv6len s1 0 (some 0) ip
  else parseIPv6Loop IPv6len s 0 none ip

/-- The scan of `ParseIP`: the first `.` or `:` of the string decides which
parser reads the whole string `s`. -/
def ParseIPScan (s : List Char) : List Char → Option IP
  | [] => none
  | c :: cs =>
    if c = '.' then parseIPv4 s
    else if c = ':' then parseIPv6 s
    else ParseIPScan s cs

/-- ParseIP parses s as an IP address, returning the result (`none` is Go's
nil). The string can be in dotted decimal or IPv6 form. -/
def ParseIP (s : String) : Option IP := ParseIPScan s.data s.data

/-- To4 converts the address to its 4-byte form; `none` if it is not an IPv4
address. -/
def To4 (ip : IP) : Option IP :=
  if ip.length = IPv4len then some ip
  else if ip.length = IPv6len ∧ (ip.take 10).all (fun b => b = 0) ∧ ip.getD 10 0 = 0xff
      ∧ ip.getD 11 0 = 0xff then
    some ((ip.drop 12).take 4)
  else none

/-! ## The outside world -/

/-- An `*http.Request` as far as this program sees it. -/
structure Request where
  Method : String
  URL : String
  deriving DecidableEq

/-- An `*http.Response` as far as this program sees it: `Body` is what reading
the body to its end gives, the bytes or a read error. -/
structure Response where
  Body : Except LibError Bytes

/-- The library calls whose outcome the program cannot compute. -/
structure Env where
  /-- The call `http.NewRequest(method, url, nil)`. -/
  NewRequest : String → String → Except LibError Request
  /-- The call `client.Do(req)` on a fresh `http.Client`. -/
  Do : Request → Except LibError Response
  /-- The call `json.Unmarshal(content, &record)` on a zero `DNSResult`. -/
  Unmarshal : Bytes → Except LibError DNSResult

/-- A library call made by the program. -/
inductive Call where
  | NewRequest (method url : String)
  | Do (req : Request)
  | ReadAll
  | Close
  | Unmarshal (content : Bytes)
  deriving DecidableEq

/-! ## main.go -/

/-- This function fetches the content of a URL and returns it as an array of
bytes if retrieved successfully (main.go, lines 39-60). -/
def getContent (env : Env) (url : String) : (Bytes × Option error) × List Call :=
  match env.NewRequest "GET" url with
  | .error err => (([], some (.external err)), [.NewRequest "GET" url])
  | .ok req =>
    match env.Do req with
    | .error err => (([], some (.external err)), [.NewRequest "GET" url, .Do req])
    | .ok resp =>
      match resp.Body with
      | .error err =>
        (([], some (.external err)), [.NewRequest "GET" url, .Do req, .ReadAll, .Close])
      | .ok body => ((body, none), [.NewRequest "GET" url, .Do req, .ReadAll, .Close])

/-- The value of `fmt.Sprintf("http://api.statdns.com/%s/a", name)`. -/
def lookupURL (name : String) : String := "http://api.statdns.com/" ++ name ++ "/a"

/-- RunDNSLookup will attempt to get the IP record for a given IP. If no
errors occur, it will return a pair of the record and nil. If it was not
successful, it will return a pair of nil and the error (main.go, lines 62-82). -/
def RunDNSLookup (env : Env) (name : String) : (Option DNSResult × Option error) × List Call :=
  let ((content, err), calls) := getContent env (lookupURL name)
  if err ≠ none then ((none, err), calls)
  else
    match env.Unmarshal content with
    | .error err1 => ((none, some (.external err1)), calls ++ [.Unmarshal content])
    | .ok record => ((some record, none), calls ++ [.Unmarshal content])

/-- StatDNSResolver uses the StatDNS service to resolve host names. -/
structure StatDNSResolver where
  deriving DecidableEq

/-- The `for _, answer := range result.Answer` loop of `Resolve` and the
`return` after it (main.go, lines 93-99); `err` is the variable of the
enclosing function. -/
def resolveAnswers (err : Option error) : List DNSAnswer → Option IP × Option error
  | [] => (none, some (error.New "No records exist"))
  | answer :: rest =>
    if answer.Type_ ≠ "CNAME" then
      let answer1 := answer.RData
      (ParseIP answer1, err)
    else resolveAnswers err rest

/-- Resolve resolves a DNS address (main.go, lines 88-100). The result is
`none` when the call does not return but stops on a nil dereference of
`result`. -/
def StatDNSResolver.Resolve (_d : StatDNSResolver) (env : Env) (name : String) :
    Option (Option IP × Option error) × List Call :=
  let ((result, err), calls) := RunDNSLookup env name
  if err ≠ none then (some (none, err), calls)
  else
    match result with
    | none => (none, calls)
    | some r => (some (resolveAnswers err r.Answer), calls)

/-! ## Specification-side notions -/

/-- The dotted-decimal text of the IPv4 address `a.b.c.d`: the four numbers in
decimal, without leading zeros, separated by dots. -/
def dottedDecimal (a b c d : Nat) : String :=
  toString a ++ "." ++ toString b ++ "." ++ toString c ++ "." ++ toString d

/-- The answer qualifies: its type is not the alias type. -/
def qualifies (a : DNSAnswer) : Prop := a.Type_ ≠ "CNAME"

instance (a : DNSAnswer) : Decidable (qualifies a) := by
  unfold qualifies; infer_instance

/-- The number a run of decimal digits denotes, continuing from `n`. -/
def decimalFrom (n : Nat) (ds : List Char) : Nat :=
  ds.foldl (fun m c => m * 10 + (c.toNat - '0'.toNat)) n

/-- The character is a decimal digit. -/
def isDecimal (c : Char) : Prop := '0' ≤ c ∧ c ≤ '9'

instance (c : Char) : Decidable (isDecimal c) := by
  unfold isDecimal; infer_instance

/-- The text is a decimal numeral of the number `n`, and `n` fits a byte. -/
def octetText (ds : List Char) (n : Nat) : Bool :=
  decide (ds ≠ [] ∧ (∀ c ∈ ds, isDecimal c) ∧ decimalFrom 0 ds = n ∧ n ≤ 0xFF)

/-- The fetch for `name` succeeded and its bytes decoded to the record `r`. -/
def Decoded (env : Env) (name : String) (r : DNSResult) : Prop :=
  ∃ content, (getContent env (lookupURL name)).1 = (content, none) ∧
    env.Unmarshal content = .ok r

/-- The URLs for which an HTTP request was built, in order. -/
def requestedURLs : List Call → List String
  | [] => []
  | .NewRequest _ url :: cs => url :: requestedURLs cs
  | _ :: cs => requestedURLs cs

/-- The HTTP requests that were sent, in order. -/
def sentRequests : List Call → List Request
  | [] => []
  | .Do req :: cs => req :: sentRequests cs
  | _ :: cs => sentRequests cs

/-- The byte strings handed to the JSON decoder, in order. -/
def decodedInputs : List Call → List Bytes
  | [] => []
  | .Unmarshal content :: cs => content :: decodedInputs cs
  | _ :: cs => decodedInputs cs

/-- A world in which building and sending the request succeed, reading the
body gives `body`, and the decoder answers `decoded` on exactly the bytes
`good` and a syntax error on all others. -/
def worldOf (body : Except LibError Bytes) (good : Bytes) (decoded : DNSResult) : Env where
  NewRequest := fun method url => .ok ⟨method, url⟩
  Do := fun _ => .ok ⟨body⟩
  Unmarshal := fun content =>
    if content = good then .ok decoded
    else .error ⟨"encoding/json", "invalid character"⟩

/-- The bytes of `{}`: a stand-in for the body of a reply. -/
def sampleBody : Bytes := [123, 125]

/-- The record of the example scenario for `example.com`: an alias record
followed by an address record. -/
def exampleResult : DNSResult where
  Question := [⟨"example.com", "A", "IN"⟩]
  Answer := [⟨"example.com", "CNAME", "IN", 300, 10, "alias.example.net"⟩,
    ⟨"alias.example.net", "A", "IN", 300, 4, "93.184.216.34"⟩]

/-- A record with no answers, as for `nxdomain.invalid`. -/
def emptyResult : DNSResult where
  Question := [⟨"nxdomain.invalid", "A", "IN"⟩]
  Answer := []

/-- A record whose only answer is an IPv6 address record. -/
def aaaaResult : DNSResult where
  Question := [⟨"ipv6.example", "A", "IN"⟩]
  Answer := [⟨"ipv6.example", "AAAA", "IN", 60, 16, "2001:db8::1"⟩]

/-- A record whose first qualifying answer carries text that is no address,
followed by a well-formed address record. -/
def malformedResult : DNSResult where
  Question := [⟨"example.org", "A", "IN"⟩]
  Answer := [⟨"example.org", "TXT", "IN", 60, 5, "hello"⟩,
    ⟨"example.org", "A", "IN", 60, 4, "10.0.0.1"⟩]

/-- A record with three address answers. -/
def multiResult : DNSResult where
  Question := [⟨"multi.example", "A", "IN"⟩]
  Answer := [⟨"multi.example", "A", "IN", 30, 4, "192.0.2.1"⟩,
    ⟨"multi.example", "A", "IN", 30, 4, "198.51.100.7"⟩,
    ⟨"multi.example", "A", "IN", 30, 4, "203.0.113.9"⟩]

/-- The record `multiResult` with the answers after the first one reordered,
one of them changed and one added. -/
def multiResultShuffled : DNSResult where
  Question := [⟨"multi.example", "A", "IN"⟩]
  Answer := [⟨"multi.example", "A", "IN", 30, 4, "192.0.2.1"⟩,
    ⟨"multi.example", "A", "IN", 30, 4, "203.0.113.10"⟩,
    ⟨"multi.example", "A", "IN", 30, 4, "198.51.100.7"⟩,
    ⟨"multi.example", "AAAA", "IN", 30, 16, "2001:db8::2"⟩]

/-- The record `exampleResult` with another question section and other names,
classes, ttls and rdlengths in its answers. -/
def exampleResultRelabelled : DNSResult where
  Question := []
  Answer := [⟨"www.example.com", "CNAME", "CH", 7, 0, "alias.example.net"⟩,
    ⟨"other.example.net", "A", "HS", 86400, 99, "93.184.216.34"⟩]

/-! ## Lemmas on the address parser -/

theorem decimalFrom_ge (ds : List Char) : ∀ n, n ≤ decimalFrom n ds := by
  induction ds with
  | nil => intro n; simp [decimalFrom]
  | cons c cs ih =>
    intro n
    have h := ih (n * 10 + (c.toNat - '0'.toNat))
    simp only [decimalFrom, List.foldl_cons] at h ⊢
    omega

theorem dtoiLoop_digits (ds : List Char) (rest : List Char)
    (hrest : ∀ c, rest.head? = some c → ¬ isDecimal c) :
    ∀ n i, (∀ c ∈ ds, isDecimal c) → decimalFrom n ds < big → 0 < i + ds.length →
      dtoiLoop (ds ++ rest) n i = (decimalFrom n ds, i + ds.length, true) := by
  induction ds with
  | nil =>
    intro n i _ _ hpos
    have hi : i ≠ 0 := by simp at hpos; omega
    cases rest with
    | nil => simp [dtoiLoop, decimalFrom, hi]
    | cons c cs =>
      have hc : ¬ ('0' ≤ c ∧ c ≤ '9') := hrest c rfl
      simp [dtoiLoop, decimalFrom, hi, hc]
  | cons c cs ih =>
    intro n i hall hlt _
    have hc : '0' ≤ c ∧ c ≤ '9' := hall c (List.mem_cons_self _ _)
    have hall1 : ∀ x ∈ cs, isDecimal x := fun x hx => hall x (List.mem_cons_of_mem _ hx)
    have hlt1 : decimalFrom (n * 10 + (c.toNat - '0'.toNat)) cs < big := by
      simpa [decimalFrom] using hlt
    have hge := decimalFrom_ge cs (n * 10 + (c.toNat - '0'.toNat))
    have hn1 : ¬ (n * 10 + (c.toNat - '0'.toNat) ≥ big) := by omega
    have hstep := ih (n * 10 + (c.toNat - '0'.toNat)) (i + 1) hall1 hlt1 (by omega)
    simp only [List.cons_append, dtoiLoop, hc, and_self, if_true, hn1, if_false]
    show dtoiLoop (cs ++ rest) (n * 10 + (c.toNat - '0'.toNat)) (i + 1) = _
    rw [hstep]
    simp [decimalFrom, List.length_cons]
    omega

theorem octetText_spec {ds : List Char} {n : Nat} (h : octetText ds n = true) :
    ds ≠ [] ∧ (∀ c ∈ ds, isDecimal c) ∧ decimalFrom 0 ds = n ∧ n ≤ 0xFF := by
  simpa [octetText] using h

theorem dtoi_octet {ds : List Char} {n : Nat} (h : octetText ds n = true) (rest : List Char)
    (hrest : ∀ c, rest.head? = some c → ¬ isDecimal c) :
    dtoi (ds ++ rest) = (n, ds.length, true) := by
  obtain ⟨hne, hall, hval, hle⟩ := octetText_spec h
  have hlen : 0 < ds.length := List.length_pos.mpr hne
  have hlt : decimalFrom 0 ds < big := by rw [hval]; unfold big; omega
  have := dtoiLoop_digits ds rest hrest 0 0 hall hlt (by omega)
  simpa [dtoi, hval] using this

theorem not_isDecimal_dot : ¬ isDecimal '.' := by decide

theorem head_dot_not_decimal (tl : List Char) :
    ∀ c, ('.' :: tl).head? = some c → ¬ isDecimal c := by
  intro c hc
  simp at hc
  subst hc
  exact not_isDecimal_dot

theorem head_nil_not_decimal : ∀ c, ([] : List Char).head? = some c → ¬ isDecimal c := by
  intro c hc
  simp at hc

/-- One turn of the loop of `parseIPv4` on the first field. -/
theorem parseIPv4Loop_first {ds : List Char} {n : Nat} (h : octetText ds n = true)
    (k : Nat) (rest : List Char) (p : List Nat)
    (hrest : ∀ c, rest.head? = some c → ¬ isDecimal c) :
    parseIPv4Loop (k + 1) 0 (ds ++ rest) p = parseIPv4Loop k 1 rest (p ++ [n]) := by
  obtain ⟨hne, _, _, hle⟩ := octetText_spec h
  have hlen : (ds ++ rest).length ≠ 0 := by
    have := List.length_pos.mpr hne
    rw [List.length_append]; omega
  have hmod : n % 256 = n := Nat.mod_eq_of_lt (by omega)
  have hn : ¬ (n > 0xFF) := by omega
  simp only [parseIPv4Loop, hlen, if_false, gt_iff_lt, lt_self_iff_false, false_and,
    dtoi_octet h rest hrest, Bool.not_true, Bool.false_eq_true, false_or, hn, hmod,
    List.drop_left, zero_add]

/-- One turn of the loop of `parseIPv4` on a later field. -/
theorem parseIPv4Loop_next {ds : List Char} {n : Nat} (h : octetText ds n = true)
    (k i : Nat) (hi : 0 < i) (rest : List Char) (p : List Nat)
    (hrest : ∀ c, rest.head? = some c → ¬ isDecimal c) :
    parseIPv4Loop (k + 1) i ('.' :: (ds ++ rest)) p = parseIPv4Loop k (i + 1) rest (p ++ [n]) := by
  obtain ⟨hne, _, _, hle⟩ := octetText_spec h
  have hmod : n % 256 = n := Nat.mod_eq_of_lt (by omega)
  have hn : ¬ (n > 0xFF) := by omega
  simp only [parseIPv4Loop, List.length_cons, Nat.add_one_ne_zero, if_false, gt_iff_lt, hi,
    List.head?_cons, ne_eq, not_true_eq_false, and_false, if_true, List.drop_succ_cons,
    List.drop_zero, dtoi_octet h rest hrest, Bool.not_true, Bool.false_eq_true, false_or, hn,
    hmod, List.drop_left]

/-- The parser `parseIPv4` reads four decimal fields separated by dots. -/
theorem parseIPv4_fields {da db dc dd : List Char} {a b c d : Nat}
    (ha : octetText da a = true) (hb : octetText db b = true)
    (hc : octetText dc c = true) (hd : octetText dd d = true) :
    parseIPv4 (da ++ '.' :: (db ++ '.' :: (dc ++ '.' :: dd))) = some (IPv4 a b c d) := by
  unfold parseIPv4 IPv4len
  rw [parseIPv4Loop_first ha 3 _ [] (head_dot_not_decimal _)]
  rw [parseIPv4Loop_next hb 2 1 (by omega) _ _ (head_dot_not_decimal _)]
  rw [parseIPv4Loop_next hc 1 2 (by omega) _ _ (head_dot_not_decimal _)]
  have h4 := parseIPv4Loop_next hd 0 3 (by omega) [] ([] ++ [a] ++ [b] ++ [c])
    head_nil_not_decimal
  rw [List.append_nil] at h4
  rw [h4]
  simp [parseIPv4Loop]

/-- The scan of `ParseIP` passes over decimal digits. -/
theorem ParseIPScan_digits (s : List Char) (ds : List Char) (rest : List Char)
    (hall : ∀ c ∈ ds, isDecimal c) :
    ParseIPScan s (ds ++ rest) = ParseIPScan s rest := by
  induction ds with
  | nil => rfl
  | cons c cs ih =>
    have hc : isDecimal c := hall c (List.mem_cons_self _ _)
    have h1 : c ≠ '.' := by
      intro h; subst h; exact not_isDecimal_dot hc
    have h2 : c ≠ ':' := by
      intro h; subst h; revert hc; decide
    simp only [List.cons_append, ParseIPScan, h1, h2, if_false]
    exact ih (fun x hx => hall x (List.mem_cons_of_mem _ hx))

/-- The parser `ParseIP` on four decimal fields separated by dots. -/
theorem ParseIP_fields {da db dc dd : List Char} {a b c d : Nat}
    (ha : octetText da a = true) (hb : octetText db b = true)
    (hc : octetText dc c = true) (hd : octetText dd d = true) :
    ParseIP (String.mk (da ++ '.' :: (db ++ '.' :: (dc ++ '.' :: dd)))) = some (IPv4 a b c d) := by
  unfold ParseIP
  show ParseIPScan _ (da ++ '.' :: (db ++ '.' :: (dc ++ '.' :: dd))) = _
  rw [ParseIPScan_digits _ da _ (octetText_spec ha).2.1]
  simp only [ParseIPScan, if_true]
  exact parseIPv4_fields ha hb hc hd

/-- The decimal rendering of a byte is a decimal numeral of it. -/
theorem octetText_repr : ∀ n, n < 256 → octetText (Nat.repr n).data n = true := by
  decide

/-- The parser `ParseIP` reads a dotted-decimal text back to its address. -/
theorem ParseIP_dottedDecimal (a b c d : Nat) (ha : a < 256) (hb : b < 256) (hc : c < 256)
    (hd : d < 256) : ParseIP (dottedDecimal a b c d) = some (IPv4 a b c d) := by
  have hs : dottedDecimal a b c d = String.mk ((Nat.repr a).data ++ '.' ::
      ((Nat.repr b).data ++ '.' :: ((Nat.repr c).data ++ '.' :: (Nat.repr d).data))) := by
    apply String.ext
    simp [dottedDecimal, toString, String.data_append]
  rw [hs]
  exact ParseIP_fields (octetText_repr a ha) (octetText_repr b hb) (octetText_repr c hc)
    (octetText_repr d hd)

/-! ## Lemmas on the lookup and the scan -/

theorem getContent_shape (env : Env) (url : String) :
    (∃ body, (getContent env url).1 = (body, none)) ∨
      (∃ e, (getContent env url).1 = ([], some (error.external e))) := by
  unfold getContent
  split
  · exact Or.inr ⟨_, rfl⟩
  · split
    · exact Or.inr ⟨_, rfl⟩
    · split
      · exact Or.inr ⟨_, rfl⟩
      · exact Or.inl ⟨_, rfl⟩

theorem RunDNSLookup_fetch_error (env : Env) (name : String) (content : Bytes) (e : error)
    (h : (getContent env (lookupURL name)).1 = (content, some e)) :
    RunDNSLookup env name = ((none, some e), (getContent env (lookupURL name)).2) := by
  unfold RunDNSLookup
  rcases hg : getContent env (lookupURL name) with ⟨⟨c, err⟩, calls⟩
  rw [hg] at h
  simp only [Prod.mk.injEq] at h
  obtain ⟨_, rfl⟩ := h
  simp

theorem RunDNSLookup_fetch_ok (env : Env) (name : String) (content : Bytes)
    (h : (getContent env (lookupURL name)).1 = (content, none)) :
    RunDNSLookup env name =
      match env.Unmarshal content with
      | .error err1 => ((none, some (error.external err1)),
          (getContent env (lookupURL name)).2 ++ [Call.Unmarshal content])
      | .ok record => ((some record, none),
          (getContent env (lookupURL name)).2 ++ [Call.Unmarshal content]) := by
  unfold RunDNSLookup
  rcases hg : getContent env (lookupURL name) with ⟨⟨c, err⟩, calls⟩
  rw [hg] at h
  simp only [Prod.mk.injEq] at h
  obtain ⟨rfl, rfl⟩ := h
  simp

theorem RunDNSLookup_decoded {env : Env} {name : String} {r : DNSResult}
    (h : Decoded env name r) : (RunDNSLookup env name).1 = (some r, none) := by
  obtain ⟨content, hf, hu⟩ := h
  rw [RunDNSLookup_fetch_ok env name content hf, hu]

theorem Resolve_decoded (d : StatDNSResolver) {env : Env} {name : String} {r : DNSResult}
    (h : Decoded env name r) :
    (d.Resolve env name).1 = some (resolveAnswers none r.Answer) := by
  have hr := RunDNSLookup_decoded h
  unfold StatDNSResolver.Resolve
  rcases hg : RunDNSLookup env name with ⟨⟨res, err⟩, calls⟩
  rw [hg] at hr
  simp only [Prod.mk.injEq] at hr
  obtain ⟨rfl, rfl⟩ := hr
  simp

theorem resolveAnswers_first (err : Option error) (pre : List DNSAnswer) (ans : DNSAnswer)
    (post : List DNSAnswer) (hpre : ∀ x ∈ pre, ¬ qualifies x) (hq : qualifies ans) :
    resolveAnswers err (pre ++ ans :: post) = (ParseIP ans.RData, err) := by
  induction pre with
  | nil =>
    have hq1 : ans.Type_ ≠ "CNAME" := hq
    simp [resolveAnswers, hq1]
  | cons x xs ih =>
    have hx : ¬ (x.Type_ ≠ "CNAME") := hpre x (List.mem_cons_self _ _)
    simp only [List.cons_append, resolveAnswers, hx, if_false]
    exact ih (fun y hy => hpre y (List.mem_cons_of_mem _ hy))

theorem resolveAnswers_none (err : Option error) (l : List DNSAnswer)
    (h : ∀ x ∈ l, ¬ qualifies x) :
    resolveAnswers err l = (none, some (error.New "No records exist")) := by
  induction l with
  | nil => rfl
  | cons x xs ih =>
    have hx : ¬ (x.Type_ ≠ "CNAME") := h x (List.mem_cons_self _ _)
    simp only [resolveAnswers, hx, if_false]
    exact ih (fun y hy => h y (List.mem_cons_of_mem _ hy))

/-- Every answer list either has a first qualifying answer or none at all. -/
theorem answers_split (l : List DNSAnswer) :
    (∀ x ∈ l, ¬ qualifies x) ∨
      ∃ pre ans post, l = pre ++ ans :: post ∧ (∀ x ∈ pre, ¬ qualifies x) ∧ qualifies ans := by
  induction l with
  | nil => left; simp
  | cons x xs ih =>
    by_cases hx : qualifies x
    · right; exact ⟨[], x, xs, rfl, by simp, hx⟩
    · rcases ih with h | ⟨pre, ans, post, hl, hpre, hq⟩
      · left
        intro y hy
        rcases List.mem_cons.mp hy with rfl | hy
        · exact hx
        · exact h y hy
      · right
        refine ⟨x :: pre, ans, post, by simp [hl], ?_, hq⟩
        intro y hy
        rcases List.mem_cons.mp hy with rfl | hy
        · exact hx
        · exact hpre y hy

theorem resolveAnswers_congr (err : Option error) :
    ∀ l1 l2 : List DNSAnswer,
      l1.map (fun a => (a.Type_, a.RData)) = l2.map (fun a => (a.Type_, a.RData)) →
      resolveAnswers err l1 = resolveAnswers err l2 := by
  intro l1
  induction l1 with
  | nil =>
    intro l2 h
    cases l2 with
    | nil => rfl
    | cons y ys => simp at h
  | cons x xs ih =>
    intro l2 h
    cases l2 with
    | nil => simp at h
    | cons y ys =>
      simp only [List.map_cons, List.cons.injEq, Prod.mk.injEq] at h
      obtain ⟨⟨ht, hr⟩, htl⟩ := h
      simp only [resolveAnswers, ht, hr]
      rw [ih ys htl]

theorem requestedURLs_append (l1 l2 : List Call) :
    requestedURLs (l1 ++ l2) = requestedURLs l1 ++ requestedURLs l2 := by
  induction l1 with
  | nil => rfl
  | cons c cs ih => cases c <;> simp [requestedURLs, ih]

theorem sentRequests_append (l1 l2 : List Call) :
    sentRequests (l1 ++ l2) = sentRequests l1 ++ sentRequests l2 := by
  induction l1 with
  | nil => rfl
  | cons c cs ih => cases c <;> simp [sentRequests, ih]

theorem getContent_requested (env : Env) (url : String) :
    requestedURLs (getContent env url).2 = [url] := by
  unfold getContent
  split
  · rfl
  · split
    · rfl
    · split <;> rfl

theorem getContent_sent (env : Env) (url : String) :
    ∀ req ∈ sentRequests (getContent env url).2,
      env.NewRequest "GET" url = .ok req ∧ sentRequests (getContent env url).2 = [req] := by
  rcases hn : env.NewRequest "GET" url with e | r
  · simp [getContent, hn, sentRequests]
  · rcases hd : env.Do r with e | resp
    · simp [getContent, hn, hd, sentRequests]
    · rcases hb : resp.Body with e | body <;> simp [getContent, hn, hd, hb, sentRequests]

theorem getContent_decoded (env : Env) (url : String) :
    decodedInputs (getContent env url).2 = [] := by
  unfold getContent
  split
  · rfl
  · split
    · rfl
    · split <;> rfl

theorem RunDNSLookup_calls (env : Env) (name : String) :
    (RunDNSLookup env name).2 = (getContent env (lookupURL name)).2 ∨
      ∃ content, (RunDNSLookup env name).2 =
        (getContent env (lookupURL name)).2 ++ [Call.Unmarshal content] := by
  rcases hg : (getContent env (lookupURL name)).1 with ⟨content, err⟩
  cases err with
  | some e =>
    left
    rw [RunDNSLookup_fetch_error env name content e hg]
  | none =>
    right
    refine ⟨content, ?_⟩
    rw [RunDNSLookup_fetch_ok env name content hg]
    cases env.Unmarshal content <;> rfl

theorem Resolve_calls (d : StatDNSResolver) (env : Env) (name : String) :
    (d.Resolve env name).2 = (RunDNSLookup env name).2 := by
  unfold StatDNSResolver.Resolve
  rcases RunDNSLookup env name with ⟨⟨res, err⟩, calls⟩
  cases err with
  | some e => simp
  | none => cases res <;> simp

theorem Resolve_of_fetch_error (d : StatDNSResolver) (env : Env) (name : String) (content : Bytes)
    (e : error) (h : (getContent env (lookupURL name)).1 = (content, some e)) :
    d.Resolve env name = (some (none, some e), (getContent env (lookupURL name)).2) := by
  unfold StatDNSResolver.Resolve
  rw [RunDNSLookup_fetch_error env name content e h]
  simp

/-! ## The claims -/

/-- C1: when the fetch succeeds and decodes, and the first answer whose type is
not "CNAME" carries as rdata the dotted-decimal text of an IPv4 address, then
`Resolve` returns exactly that address together with a nil error. -/
theorem Resolve_returns_first_ipv4 (d : StatDNSResolver) (env : Env) (name : String)
    (r : DNSResult) (pre : List DNSAnswer) (ans : DNSAnswer) (post : List DNSAnswer)
    (a b c e : Nat)
    (hdec : Decoded env name r)
    (hans : r.Answer = pre ++ ans :: post)
    (hpre : ∀ x ∈ pre, x.Type_ = "CNAME")
    (hq : ans.Type_ ≠ "CNAME")
    (ha : a < 256) (hb : b < 256) (hc : c < 256) (he : e < 256)
    (hrd : ans.RData = dottedDecimal a b c e) :
    (d.Resolve env name).1 = some (some (IPv4 a b c e), none) := by
  have hpre1 : ∀ x ∈ pre, ¬ qualifies x := fun x hx hqx => hqx (hpre x hx)
  rw [Resolve_decoded d hdec, hans, resolveAnswers_first none pre ans post hpre1 hq, hrd,
    ParseIP_dottedDecimal a b c e ha hb hc he]

/-- C1 at the example scenario: an alias record for `example.com` followed by
the address record `93.184.216.34` resolves to 93.184.216.34 and no error. -/
theorem Resolve_returns_first_ipv4_witness :
    (StatDNSResolver.mk.Resolve (worldOf (.ok sampleBody) sampleBody exampleResult)
      "example.com").1 = some (some [0, 0, 0, 0, 0, 0, 0, 0, 0, 0, 255, 255, 93, 184, 216, 34],
        none) :=
  Resolve_returns_first_ipv4 StatDNSResolver.mk
    (worldOf (.ok sampleBody) sampleBody exampleResult) "example.com" exampleResult
    [⟨"example.com", "CNAME", "IN", 300, 10, "alias.example.net"⟩]
    ⟨"alias.example.net", "A", "IN", 300, 4, "93.184.216.34"⟩ [] 93 184 216 34
    ⟨sampleBody, rfl, rfl⟩ rfl (by decide) (by decide)
    (by decide) (by decide) (by decide) (by decide) (by decide)

/-- C2: first match wins. With a first answer `ans` whose type is not "CNAME",
`Resolve` returns the address parsed from the rdata of `ans`, and a second
record that has the same answers up to and including `ans` and any answers
whatever after it gives the same returned value. -/
theorem Resolve_first_match_wins (d : StatDNSResolver) (env1 env2 : Env) (name1 name2 : String)
    (r1 r2 : DNSResult) (pre : List DNSAnswer) (ans : DNSAnswer) (post1 post2 : List DNSAnswer)
    (hdec1 : Decoded env1 name1 r1) (hdec2 : Decoded env2 name2 r2)
    (hans1 : r1.Answer = pre ++ ans :: post1) (hans2 : r2.Answer = pre ++ ans :: post2)
    (hpre : ∀ x ∈ pre, x.Type_ = "CNAME")
    (hq : ans.Type_ ≠ "CNAME") :
    (d.Resolve env1 name1).1 = some (ParseIP ans.RData, none) ∧
      (d.Resolve env2 name2).1 = (d.Resolve env1 name1).1 := by
  have hpre1 : ∀ x ∈ pre, ¬ qualifies x := fun x hx hqx => hqx (hpre x hx)
  rw [Resolve_decoded d hdec1, Resolve_decoded d hdec2, hans1, hans2,
    resolveAnswers_first none pre ans post1 hpre1 hq,
    resolveAnswers_first none pre ans post2 hpre1 hq]
  exact ⟨rfl, rfl⟩

/-- C2 at a record with three address answers and at the same record with the
later answers reordered, changed and extended: both give 192.0.2.1. -/
theorem Resolve_first_match_wins_witness :
    (StatDNSResolver.mk.Resolve (worldOf (.ok sampleBody) sampleBody multiResult)
        "multi.example").1 = some (ParseIP "192.0.2.1", none) ∧
      (StatDNSResolver.mk.Resolve (worldOf (.ok sampleBody) sampleBody multiResultShuffled)
        "multi.example").1 =
      (StatDNSResolver.mk.Resolve (worldOf (.ok sampleBody) sampleBody multiResult)
        "multi.example").1 :=
  Resolve_first_match_wins StatDNSResolver.mk
    (worldOf (.ok sampleBody) sampleBody multiResult)
    (worldOf (.ok sampleBody) sampleBody multiResultShuffled) "multi.example" "multi.example"
    multiResult multiResultShuffled []
    ⟨"multi.example", "A", "IN", 30, 4, "192.0.2.1"⟩
    [⟨"multi.example", "A", "IN", 30, 4, "198.51.100.7"⟩,
      ⟨"multi.example", "A", "IN", 30, 4, "203.0.113.9"⟩]
    [⟨"multi.example", "A", "IN", 30, 4, "203.0.113.10"⟩,
      ⟨"multi.example", "A", "IN", 30, 4, "198.51.100.7"⟩,
      ⟨"multi.example", "AAAA", "IN", 30, 16, "2001:db8::2"⟩]
    ⟨sampleBody, rfl, rfl⟩
    ⟨sampleBody, rfl, rfl⟩ rfl rfl
    (by intro x hx; cases hx) (by decide)

/-- C3: when the fetch succeeds and decodes and no answer qualifies (there is
no answer, or every answer has type "CNAME"), `Resolve` returns a nil address
together with the error "No records exist". -/
theorem Resolve_no_records (d : StatDNSResolver) (env : Env) (name : String) (r : DNSResult)
    (hdec : Decoded env name r)
    (hnone : ∀ x ∈ r.Answer, x.Type_ = "CNAME") :
    (d.Resolve env name).1 = some (none, some (error.New "No records exist")) := by
  have h1 : ∀ x ∈ r.Answer, ¬ qualifies x := fun x hx hqx => hqx (hnone x hx)
  rw [Resolve_decoded d hdec, resolveAnswers_none none r.Answer h1]

/-- C3 at the example scenario: an empty answer list for `nxdomain.invalid`. -/
theorem Resolve_no_records_witness :
    (StatDNSResolver.mk.Resolve (worldOf (.ok sampleBody) sampleBody emptyResult)
      "nxdomain.invalid").1 = some (none, some (error.New "No records exist")) :=
  Resolve_no_records StatDNSResolver.mk (worldOf (.ok sampleBody) sampleBody emptyResult)
    "nxdomain.invalid" emptyResult ⟨sampleBody, rfl, rfl⟩
    (by intro x hx; cases hx)

/-- C4: when `getContent` fails with the error `e`, then whatever the JSON
decoder would do, `RunDNSLookup` returns a nil record with `e`, `Resolve`
returns a nil address with the same `e`, and the decoder is never called. -/
theorem Resolve_fetch_error_unchanged (d : StatDNSResolver) (env : Env) (name : String)
    (content : Bytes) (e : error)
    (hfetch : (getContent env (lookupURL name)).1 = (content, some e))
    (decoder : Bytes → Except LibError DNSResult) :
    (RunDNSLookup (Env.mk env.NewRequest env.Do decoder) name).1 = (none, some e) ∧
      (d.Resolve (Env.mk env.NewRequest env.Do decoder) name).1 = some (none, some e) ∧
      decodedInputs (d.Resolve (Env.mk env.NewRequest env.Do decoder) name).2 = [] := by
  have hfetch1 : (getContent (Env.mk env.NewRequest env.Do decoder) (lookupURL name)).1 =
      (content, some e) := hfetch
  refine ⟨?_, ?_, ?_⟩
  · rw [RunDNSLookup_fetch_error _ name content e hfetch1]
  · rw [Resolve_of_fetch_error d _ name content e hfetch1]
  · rw [Resolve_of_fetch_error d _ name content e hfetch1]
    exact getContent_decoded _ _

/-- C4 in a world where reading the body fails: the read error comes back
unchanged, even though the decoder of that world would accept any body. -/
theorem Resolve_fetch_error_unchanged_witness :
    (RunDNSLookup (Env.mk
        (worldOf (.error ⟨"io", "unexpected EOF"⟩) sampleBody exampleResult).NewRequest
        (worldOf (.error ⟨"io", "unexpected EOF"⟩) sampleBody exampleResult).Do
        (fun _ => .ok exampleResult)) "example.com").1 =
        (none, some (error.external ⟨"io", "unexpected EOF"⟩)) ∧
      (StatDNSResolver.mk.Resolve (Env.mk
        (worldOf (.error ⟨"io", "unexpected EOF"⟩) sampleBody exampleResult).NewRequest
        (worldOf (.error ⟨"io", "unexpected EOF"⟩) sampleBody exampleResult).Do
        (fun _ => .ok exampleResult)) "example.com").1 =
        some (none, some (error.external ⟨"io", "unexpected EOF"⟩)) ∧
      decodedInputs (StatDNSResolver.mk.Resolve (Env.mk
        (worldOf (.error ⟨"io", "unexpected EOF"⟩) sampleBody exampleResult).NewRequest
        (worldOf (.error ⟨"io", "unexpected EOF"⟩) sampleBody exampleResult).Do
        (fun _ => .ok exampleResult)) "example.com").2 = [] :=
  Resolve_fetch_error_unchanged StatDNSResolver.mk
    (worldOf (.error ⟨"io", "unexpected EOF"⟩) sampleBody exampleResult) "example.com" []
    (error.external ⟨"io", "unexpected EOF"⟩) rfl (fun _ => .ok exampleResult)

/-- C5: when the fetch succeeds and the decoder fails on the fetched bytes with
the error `e`, `Resolve` returns a nil address together with `e`, and `e` is
not the error "No records exist" that `Resolve` returns when no answer
qualifies. -/
theorem Resolve_decode_error (d : StatDNSResolver) (env : Env) (name : String)
    (content : Bytes) (e : LibError)
    (hfetch : (getContent env (lookupURL name)).1 = (content, none))
    (hdec : env.Unmarshal content = .error e) :
    (d.Resolve env name).1 = some (none, some (error.external e)) ∧
      ∀ (env2 : Env) (name2 : String) (r2 : DNSResult), Decoded env2 name2 r2 →
        (∀ x ∈ r2.Answer, x.Type_ = "CNAME") →
        ∃ e2, (d.Resolve env2 name2).1 = some (none, some e2) ∧ e2 ≠ error.external e := by
  constructor
  · have h := RunDNSLookup_fetch_ok env name content hfetch
    rw [hdec] at h
    unfold StatDNSResolver.Resolve
    rw [h]
    simp
  · intro env2 name2 r2 hdec2 hnone
    have h1 : ∀ x ∈ r2.Answer, ¬ qualifies x := fun x hx hqx => hqx (hnone x hx)
    refine ⟨error.New "No records exist", ?_, by simp⟩
    rw [Resolve_decoded d hdec2, resolveAnswers_none none r2.Answer h1]

/-- C5 in a world whose decoder rejects the fetched body. -/
theorem Resolve_decode_error_witness :
    (StatDNSResolver.mk.Resolve (worldOf (.ok sampleBody) [] exampleResult) "example.com").1 =
        some (none, some (error.external ⟨"encoding/json", "invalid character"⟩)) ∧
      ∀ (env2 : Env) (name2 : String) (r2 : DNSResult), Decoded env2 name2 r2 →
        (∀ x ∈ r2.Answer, x.Type_ = "CNAME") →
        ∃ e2, (StatDNSResolver.mk.Resolve env2 name2).1 = some (none, some e2) ∧
          e2 ≠ error.external ⟨"encoding/json", "invalid character"⟩ :=
  Resolve_decode_error StatDNSResolver.mk (worldOf (.ok sampleBody) [] exampleResult)
    "example.com" sampleBody ⟨"encoding/json", "invalid character"⟩ rfl
    (by simp [worldOf, sampleBody])

/-- C6: when the first answer whose type is not "CNAME" carries an rdata that
`ParseIP` does not accept as an IP address, `Resolve` returns a nil address
together with a nil error, whatever answers follow it. -/
theorem Resolve_malformed_rdata (d : StatDNSResolver) (env : Env) (name : String)
    (r : DNSResult) (pre : List DNSAnswer) (ans : DNSAnswer) (post : List DNSAnswer)
    (hdec : Decoded env name r)
    (hans : r.Answer = pre ++ ans :: post)
    (hpre : ∀ x ∈ pre, x.Type_ = "CNAME")
    (hq : ans.Type_ ≠ "CNAME")
    (hbad : ParseIP ans.RData = none) :
    (d.Resolve env name).1 = some (none, none) := by
  have hpre1 : ∀ x ∈ pre, ¬ qualifies x := fun x hx hqx => hqx (hpre x hx)
  rw [Resolve_decoded d hdec, hans, resolveAnswers_first none pre ans post hpre1 hq, hbad]

/-- C6 at a record whose first qualifying answer carries `hello` and is
followed by a well-formed address record: no address and no error. -/
theorem Resolve_malformed_rdata_witness :
    (StatDNSResolver.mk.Resolve (worldOf (.ok sampleBody) sampleBody malformedResult)
      "example.org").1 = some (none, none) :=
  Resolve_malformed_rdata StatDNSResolver.mk
    (worldOf (.ok sampleBody) sampleBody malformedResult) "example.org" malformedResult []
    ⟨"example.org", "TXT", "IN", 60, 5, "hello"⟩
    [⟨"example.org", "A", "IN", 60, 4, "10.0.0.1"⟩]
    ⟨sampleBody, rfl, rfl⟩ rfl
    (by intro x hx; cases hx) (by decide) (by decide)

/-- C7 fails as stated: a record whose only answer has type "AAAA" and rdata
`2001:db8::1` makes `Resolve` return a non-nil address that is not an IPv4
address and was parsed from an answer whose type is not "A". -/
theorem Resolve_only_A_counterexample :
    Decoded (worldOf (.ok sampleBody) sampleBody aaaaResult) "ipv6.example" aaaaResult ∧
      (StatDNSResolver.mk.Resolve (worldOf (.ok sampleBody) sampleBody aaaaResult)
        "ipv6.example").1 =
        some (some [0x20, 0x01, 0x0d, 0xb8, 0, 0, 0, 0, 0, 0, 0, 0, 0, 0, 0, 1], none) ∧
      To4 [0x20, 0x01, 0x0d, 0xb8, 0, 0, 0, 0, 0, 0, 0, 0, 0, 0, 0, 1] = none ∧
      ∀ x ∈ aaaaResult.Answer, x.Type_ ≠ "A" := by
  refine ⟨⟨sampleBody, rfl, rfl⟩, by decide, by decide, by decide⟩

/-- C7 as amended: whenever `Resolve` returns a non-nil address for a decoded
record, that address is what `ParseIP` gives for the rdata of the first answer
whose type is not "CNAME", and the error is nil. -/
theorem Resolve_address_source (d : StatDNSResolver) (env : Env) (name : String)
    (r : DNSResult) (ip : IP) (err : Option error)
    (hdec : Decoded env name r)
    (hres : (d.Resolve env name).1 = some (some ip, err)) :
    ∃ pre ans post, r.Answer = pre ++ ans :: post ∧ (∀ x ∈ pre, x.Type_ = "CNAME") ∧
      ans.Type_ ≠ "CNAME" ∧ ParseIP ans.RData = some ip ∧ err = none := by
  rw [Resolve_decoded d hdec] at hres
  rcases answers_split r.Answer with hnone | ⟨pre, ans, post, hl, hpre, hq⟩
  · rw [resolveAnswers_none none r.Answer hnone] at hres
    simp at hres
  · rw [hl, resolveAnswers_first none pre ans post hpre hq] at hres
    simp only [Option.some.injEq, Prod.mk.injEq] at hres
    refine ⟨pre, ans, post, hl, ?_, hq, hres.1, hres.2.symm⟩
    intro x hx
    have := hpre x hx
    simpa [qualifies] using this

/-- C7 as amended, at the record whose only answer has type "AAAA". -/
theorem Resolve_address_source_witness :
    ∃ pre ans post, aaaaResult.Answer = pre ++ ans :: post ∧ (∀ x ∈ pre, x.Type_ = "CNAME") ∧
      ans.Type_ ≠ "CNAME" ∧
      ParseIP ans.RData = some [0x20, 0x01, 0x0d, 0xb8, 0, 0, 0, 0, 0, 0, 0, 0, 0, 0, 0, 1] ∧
      (none : Option error) = none :=
  Resolve_address_source StatDNSResolver.mk (worldOf (.ok sampleBody) sampleBody aaaaResult)
    "ipv6.example" aaaaResult [0x20, 0x01, 0x0d, 0xb8, 0, 0, 0, 0, 0, 0, 0, 0, 0, 0, 0, 1] none
    ⟨sampleBody, rfl, rfl⟩
    (by
      have hdec : Decoded (worldOf (.ok sampleBody) sampleBody aaaaResult) "ipv6.example"
          aaaaResult := ⟨sampleBody, rfl, rfl⟩
      rw [Resolve_decoded _ hdec]
      decide)

/-- C8: the one URL for which `RunDNSLookup` and `Resolve` build a request is
"http://api.statdns.com/" followed by the host name followed by "/a"; the
calls start with those of `getContent` on that URL, at most one request is
sent, and a request that is sent is the one built for that URL. -/
theorem Resolve_requests_lookup_url (d : StatDNSResolver) (env : Env) (name : String) :
    requestedURLs (d.Resolve env name).2 = ["http://api.statdns.com/" ++ name ++ "/a"] ∧
      requestedURLs (RunDNSLookup env name).2 = ["http://api.statdns.com/" ++ name ++ "/a"] ∧
      (∃ rest, (d.Resolve env name).2 =
        (getContent env ("http://api.statdns.com/" ++ name ++ "/a")).2 ++ rest ∧
        requestedURLs rest = [] ∧ sentRequests rest = []) ∧
      (sentRequests (d.Resolve env name).2).length ≤ 1 ∧
      ∀ req ∈ sentRequests (d.Resolve env name).2,
        env.NewRequest "GET" ("http://api.statdns.com/" ++ name ++ "/a") = .ok req := by
  have hurl : lookupURL name = "http://api.statdns.com/" ++ name ++ "/a" := rfl
  rw [← hurl, Resolve_calls]
  have hreq := getContent_requested env (lookupURL name)
  have hsent := getContent_sent env (lookupURL name)
  have hlen : (sentRequests (getContent env (lookupURL name)).2).length ≤ 1 := by
    cases hs : sentRequests (getContent env (lookupURL name)).2 with
    | nil => simp
    | cons q qs =>
      have := (hsent q (by rw [hs]; exact List.mem_cons_self _ _)).2
      rw [hs] at this
      rw [this]; simp
  rcases RunDNSLookup_calls env name with h | ⟨content, h⟩
  · rw [h]
    exact ⟨hreq, hreq, ⟨[], by simp, rfl, rfl⟩, hlen, fun q hq => (hsent q hq).1⟩
  · rw [h]
    have h1 : requestedURLs ((getContent env (lookupURL name)).2 ++ [Call.Unmarshal content]) =
        [lookupURL name] := by
      rw [requestedURLs_append, hreq]; rfl
    have h2 : sentRequests ((getContent env (lookupURL name)).2 ++ [Call.Unmarshal content]) =
        sentRequests (getContent env (lookupURL name)).2 := by
      rw [sentRequests_append]; simp [sentRequests]
    rw [h2]
    exact ⟨h1, h1, ⟨[Call.Unmarshal content], rfl, rfl, rfl⟩, hlen, fun q hq => (hsent q hq).1⟩

/-- C9: `RunDNSLookup` returns either a record with a nil error, exactly when
the fetch succeeded and its bytes decoded to that record, or a nil record with
an error, exactly when fetching or decoding failed; never nil with nil and
never a record with an error. -/
theorem RunDNSLookup_record_or_error (env : Env) (name : String) :
    (∃ r, (RunDNSLookup env name).1 = (some r, none) ∧ Decoded env name r) ∨
      (∃ e, (RunDNSLookup env name).1 = (none, some e) ∧ ¬ ∃ r, Decoded env name r) := by
  rcases getContent_shape env (lookupURL name) with ⟨body, hb⟩ | ⟨e, he⟩
  · have h := RunDNSLookup_fetch_ok env name body hb
    cases hu : env.Unmarshal body with
    | ok r =>
      left
      rw [hu] at h
      exact ⟨r, by rw [h], body, hb, hu⟩
    | error e =>
      right
      rw [hu] at h
      refine ⟨error.external e, by rw [h], ?_⟩
      rintro ⟨r, content, hc, hdec⟩
      rw [hb] at hc
      simp only [Prod.mk.injEq, and_true] at hc
      subst hc
      rw [hu] at hdec
      cases hdec
  · right
    refine ⟨error.external e, by rw [RunDNSLookup_fetch_error env name [] _ he], ?_⟩
    rintro ⟨r, content, hc, _⟩
    rw [he] at hc
    simp at hc

/-- C10: two decoded records whose answer lists agree, position by position,
on type and rdata make `Resolve` return the same address and the same error,
whatever their questions and the other fields of their answers are. -/
theorem Resolve_depends_on_type_rdata (d : StatDNSResolver) (env1 env2 : Env)
    (name1 name2 : String) (r1 r2 : DNSResult)
    (hdec1 : Decoded env1 name1 r1) (hdec2 : Decoded env2 name2 r2)
    (hsame : r1.Answer.map (fun a => (a.Type_, a.RData)) =
      r2.Answer.map (fun a => (a.Type_, a.RData))) :
    (d.Resolve env1 name1).1 = (d.Resolve env2 name2).1 := by
  rw [Resolve_decoded d hdec1, Resolve_decoded d hdec2,
    resolveAnswers_congr none r1.Answer r2.Answer hsame]

/-- C10 at the example record and a relabelled copy of it. -/
theorem Resolve_depends_on_type_rdata_witness :
    (StatDNSResolver.mk.Resolve (worldOf (.ok sampleBody) sampleBody exampleResult)
        "example.com").1 =
      (StatDNSResolver.mk.Resolve (worldOf (.ok []) [] exampleResultRelabelled)
        "www.example.com").1 :=
  Resolve_depends_on_type_rdata StatDNSResolver.mk
    (worldOf (.ok sampleBody) sampleBody exampleResult)
    (worldOf (.ok []) [] exampleResultRelabelled) "example.com" "www.example.com"
    exampleResult exampleResultRelabelled
    ⟨sampleBody, rfl, rfl⟩
    ⟨[], rfl, rfl⟩ (by decide)

end StatDNS
